import Mathlib

/-!
Shallow embedding of `src/python/pyspark/resourceprofile.py` (class
`ResourceProfile`): a Python binding that wraps a JVM
`org.apache.spark.resource.ResourceProfile` object and forwards `require`
calls and the two read accessors to it.

Python dictionaries are embedded as association lists with Python's
insert-or-overwrite-in-place semantics.  Python object references are
embedded explicitly: a `Store` maps references to JVM profile objects and
records, for each Python `ResourceProfile` wrapper, which JVM object its
`_jResourceProfile` field holds.  Fallible Python code (attribute lookup on
an object lacking the attribute) returns `Except PyError`.

The classes imported by the file but not part of it
(`TaskResourceRequest`, `ExecutorResourceRequest`, `TaskResourceRequests`,
and the JVM `ResourceProfile`) are modelled from the spec, as indicated on
each definition.
-/

namespace PySparkResource

/-- Python dictionary with keys of type `κ`, embedded as an association
list; lookups take the first (and, with unique keys, only) match. -/
abbrev Dict (κ : Type) (α : Type) := List (κ × α)

/-- Python `d[k]` lookup returning `none` when the key is absent. -/
def dictLookup {κ α : Type} [DecidableEq κ] (k : κ) : Dict κ α → Option α
  | [] => none
  | (k', v) :: rest => if k' = k then some v else dictLookup k rest

/-- Python `d[k] = v`: overwrite in place if `k` is present, append
otherwise (Python dicts keep the original insertion position on
overwrite). -/
def dictInsert {κ α : Type} [DecidableEq κ] (k : κ) (v : α) : Dict κ α → Dict κ α
  | [] => [(k, v)]
  | (k', v') :: rest =>
      if k' = k then (k, v) :: rest else (k', v') :: dictInsert k v rest

/-- The keys of a dictionary, in order. -/
def dictKeys {κ α : Type} (d : Dict κ α) : List κ := d.map Prod.fst

/-- Modelled from the spec: `TaskResourceRequest` is a value object
`\x7bresourceName: String, amount: Number\x7d` (pyspark/taskresourcerequest.py
is not part of this file's source). -/
structure TaskResourceRequest where
  resourceName : String
  amount : Nat
deriving DecidableEq, Repr

/-- Modelled from the spec: `ExecutorResourceRequest` is a value object
`\x7bresourceName, amount, discoveryScript, vendor\x7d`
(pyspark/executorresourcerequest.py is not part of this file's source). -/
structure ExecutorResourceRequest where
  resourceName : String
  amount : Nat
  discoveryScript : String
  vendor : String
deriving DecidableEq, Repr

/-- Modelled from the spec: `TaskResourceRequests` is a batch container
accumulating individual task requests; its `_javaTaskResourceRequests`
field holds the JVM-side batch, embedded as the list of accumulated
requests (pyspark/taskresourcerequests.py is not part of this file's
source). -/
structure TaskResourceRequests where
  _javaTaskResourceRequests : List TaskResourceRequest
deriving DecidableEq, Repr

/-- Modelled from the spec: `ExecutorResourceRequests` is a batch container
accumulating individual executor requests; its
`_javaExecutorResourceRequests` field holds the JVM-side batch, embedded as
the list of accumulated requests. -/
structure ExecutorResourceRequests where
  _javaExecutorResourceRequests : List ExecutorResourceRequest
deriving DecidableEq, Repr

/-- Modelled from the spec: the JVM
`org.apache.spark.resource.ResourceProfile` owns two name-keyed mappings of
resource requests (`taskResourcesJMap` / `executorResourcesJMap`). -/
structure JResourceProfile where
  taskMap : Dict String TaskResourceRequest
  execMap : Dict String ExecutorResourceRequest
deriving DecidableEq, Repr

/-- Modelled from the spec: the JVM `require` on a task-request batch
merges the contained name→request entries into the task mapping,
overwriting on name collision. -/
def JResourceProfile.requireTask (jp : JResourceProfile)
    (reqs : List TaskResourceRequest) : JResourceProfile :=
  { jp with taskMap := reqs.foldl (fun m r => dictInsert r.resourceName r m) jp.taskMap }

/-- Modelled from the spec: the JVM `require` on an executor-request batch
merges the contained name→request entries into the executor mapping,
overwriting on name collision. -/
def JResourceProfile.requireExec (jp : JResourceProfile)
    (reqs : List ExecutorResourceRequest) : JResourceProfile :=
  { jp with execMap := reqs.foldl (fun m r => dictInsert r.resourceName r m) jp.execMap }

/-- A reference to a heap object. -/
abbrev Ref := Nat

/-- The explicit heap: the JVM profile objects, the binding of each Python
`ResourceProfile` wrapper's `_jResourceProfile` field to a JVM object, and
the next fresh reference. -/
structure Store where
  jProfiles : Dict Ref JResourceProfile
  pyProfiles : Dict Ref Ref
  nextRef : Ref
deriving DecidableEq, Repr

/-- The store before anything is allocated. -/
def Store.empty : Store := ⟨[], [], 0⟩

/-- Errors Python can raise here.  `attributeError` is Python's
`AttributeError`, raised by attribute lookup on an object that lacks the
attribute; `typeError` is listed only to state that no operation of this
file ever produces any error besides `attributeError`. -/
inductive PyError where
  | attributeError
  | typeError
deriving DecidableEq, Repr

/-- A Python value passed as the `resourceRequest` argument of `require`:
one of the four request classes, or a value of any unrecognized type
(`other`). -/
inductive RequireArg where
  | taskReq : TaskResourceRequest → RequireArg
  | execReq : ExecutorResourceRequest → RequireArg
  | taskReqs : TaskResourceRequests → RequireArg
  | execReqs : ExecutorResourceRequests → RequireArg
  | other : String → RequireArg
deriving DecidableEq, Repr

/-- The `isinstance(resourceRequest, TaskResourceRequests)` test in
`ResourceProfile.require`. -/
def isTaskResourceRequests : RequireArg → Bool
  | .taskReqs _ => true
  | _ => false

/-- Python attribute access `resourceRequest._javaTaskResourceRequests`:
only the `TaskResourceRequests` batch container defines this attribute. -/
def javaTaskResourceRequestsAttr : RequireArg → Option (List TaskResourceRequest)
  | .taskReqs t => some t._javaTaskResourceRequests
  | _ => none

/-- Python attribute access
`resourceRequest._javaExecutorResourceRequests`: only the
`ExecutorResourceRequests` batch container defines this attribute (the
spec gives the single value objects only their data fields). -/
def javaExecutorResourceRequestsAttr : RequireArg → Option (List ExecutorResourceRequest)
  | .execReqs e => some e._javaExecutorResourceRequests
  | _ => none

/-- Replace the JVM profile object at `jr` in the store. -/
def Store.setJ (s : Store) (jr : Ref) (jp : JResourceProfile) : Store :=
  { s with jProfiles := dictInsert jr jp s.jProfiles }

/-- `ResourceProfile.__init__` with `_jResourceProfile = None`: allocates a
fresh JVM `ResourceProfile()` (modelled from the spec: created with empty
task/executor mappings) and binds the new Python wrapper's
`_jResourceProfile` field to it.  Returns the reference to the new Python
wrapper. -/
def construct (s : Store) : Ref × Store :=
  let jr := s.nextRef
  let pr := s.nextRef + 1
  (pr, { jProfiles := dictInsert jr ⟨[], []⟩ s.jProfiles,
         pyProfiles := dictInsert pr jr s.pyProfiles,
         nextRef := s.nextRef + 2 })

/-- `ResourceProfile.__init__` with an externally supplied
`_jResourceProfile` handle: binds the new Python wrapper to the given JVM
object. -/
def constructWithHandle (s : Store) (jr : Ref) : Ref × Store :=
  let pr := s.nextRef
  (pr, { s with pyProfiles := dictInsert pr jr s.pyProfiles,
                nextRef := s.nextRef + 1 })

/-- `ResourceProfile.require`:

    if isinstance(resourceRequest, TaskResourceRequests):
        self._jResourceProfile.require(resourceRequest._javaTaskResourceRequests)
    else:
        self._jResourceProfile.require(resourceRequest._javaExecutorResourceRequests)
    return self

`p` is the Python wrapper (`self`).  Looking up `p`'s `_jResourceProfile`
binding and the JVM object it refers to fails only on an ill-formed store;
on the `else` branch the attribute access raises `AttributeError` when the
argument lacks `_javaExecutorResourceRequests`. -/
def require (s : Store) (p : Ref) (arg : RequireArg) : Except PyError (Ref × Store) :=
  match dictLookup p s.pyProfiles with
  | none => .error .attributeError
  | some jr =>
    match dictLookup jr s.jProfiles with
    | none => .error .attributeError
    | some jp =>
      if isTaskResourceRequests arg then
        match javaTaskResourceRequestsAttr arg with
        | none => .error .attributeError
        | some reqs => .ok (p, s.setJ jr (jp.requireTask reqs))
      else
        match javaExecutorResourceRequestsAttr arg with
        | none => .error .attributeError
        | some reqs => .ok (p, s.setJ jr (jp.requireExec reqs))

/-- The `taskResources` accessor:

    taskRes = self._jResourceProfile.taskResourcesJMap()
    result = \x7b\x7d
    for k, v in taskRes.items():
        result[k] = TaskResourceRequest(v.resourceName(), v.amount())
    return result

It reads the JVM map and rebuilds a fresh Python dict of freshly
constructed `TaskResourceRequest` objects; the store is untouched. -/
def taskResources (s : Store) (p : Ref) :
    Except PyError (Dict String TaskResourceRequest × Store) :=
  match dictLookup p s.pyProfiles with
  | none => .error .attributeError
  | some jr =>
    match dictLookup jr s.jProfiles with
    | none => .error .attributeError
    | some jp =>
      .ok (jp.taskMap.foldl
             (fun result kv => dictInsert kv.1 ⟨kv.2.resourceName, kv.2.amount⟩ result) [],
           s)

/-- The `executorResources` accessor:

    execRes = self._jResourceProfile.executorResourcesJMap()
    result = \x7b\x7d
    for k, v in execRes.items():
        result[k] = ExecutorResourceRequest(v.resourceName(), v.amount(),
                                            v.discoveryScript(), v.vendor())
    return result
-/
def executorResources (s : Store) (p : Ref) :
    Except PyError (Dict String ExecutorResourceRequest × Store) :=
  match dictLookup p s.pyProfiles with
  | none => .error .attributeError
  | some jr =>
    match dictLookup jr s.jProfiles with
    | none => .error .attributeError
    | some jp =>
      .ok (jp.execMap.foldl
             (fun result kv =>
               dictInsert kv.1 ⟨kv.2.resourceName, kv.2.amount, kv.2.discoveryScript, kv.2.vendor⟩ result) [],
           s)

/-- Run a sequence of `require` calls on the profile `p`; a raised error
aborts the sequence, as an uncaught Python exception would. -/
def runRequires (s : Store) (p : Ref) : List RequireArg → Except PyError Store
  | [] => .ok s
  | a :: rest =>
    match require s p a with
    | .error e => .error e
    | .ok (_, s') => runRequires s' p rest

/-- An argument of one of the two batch-container classes — the arguments
on which `require` completes without raising. -/
def isBatch : RequireArg → Bool
  | .taskReqs _ => true
  | .execReqs _ => true
  | _ => false

/-- The task requests contained in a sequence of `require` arguments, in
call order. -/
def taskEntriesOf : List RequireArg → List TaskResourceRequest
  | [] => []
  | .taskReqs t :: rest => t._javaTaskResourceRequests ++ taskEntriesOf rest
  | _ :: rest => taskEntriesOf rest

/-- The executor requests contained in a sequence of `require` arguments,
in call order. -/
def execEntriesOf : List RequireArg → List ExecutorResourceRequest
  | [] => []
  | .execReqs e :: rest => e._javaExecutorResourceRequests ++ execEntriesOf rest
  | _ :: rest => execEntriesOf rest

/-- The JVM profile obtained by merging a sequence of batch arguments (the
arguments that are not batch containers merge nothing). -/
def applyBatches (jp : JResourceProfile) : List RequireArg → JResourceProfile
  | [] => jp
  | .taskReqs t :: rest => applyBatches (jp.requireTask t._javaTaskResourceRequests) rest
  | .execReqs e :: rest => applyBatches (jp.requireExec e._javaExecutorResourceRequests) rest
  | _ :: rest => applyBatches jp rest

/-- Every JVM profile in the store keys each of its two mappings by
pairwise-distinct resource names. -/
def uniqueNames (s : Store) : Prop :=
  ∀ r jp, dictLookup r s.jProfiles = some jp →
    (dictKeys jp.taskMap).Nodup ∧ (dictKeys jp.execMap).Nodup

/-! ### Dictionary lemmas -/

theorem dictKeys_nil {κ α : Type} : dictKeys ([] : Dict κ α) = [] := rfl

theorem dictKeys_cons {κ α : Type} (kv : κ × α) (d : Dict κ α) :
    dictKeys (kv :: d) = kv.1 :: dictKeys d := rfl

theorem dictLookup_dictInsert {κ α : Type} [DecidableEq κ] (k k' : κ) (v : α)
    (d : Dict κ α) :
    dictLookup k (dictInsert k' v d) = if k' = k then some v else dictLookup k d := by
  induction d with
  | nil => simp [dictInsert, dictLookup]
  | cons kv rest ih =>
    obtain ⟨k₀, v₀⟩ := kv
    by_cases h₀ : k₀ = k'
    · subst h₀
      by_cases h₁ : k₀ = k <;> simp [dictInsert, dictLookup, h₁]
    · by_cases h₁ : k₀ = k
      · subst h₁
        simp [dictInsert, dictLookup, h₀, Ne.symm h₀]
      · simp [dictInsert, dictLookup, h₀, h₁, ih]

theorem dictLookup_dictInsert_same {κ α : Type} [DecidableEq κ] (k : κ) (v : α)
    (d : Dict κ α) : dictLookup k (dictInsert k v d) = some v := by
  simp [dictLookup_dictInsert]

theorem dictLookup_dictInsert_other {κ α : Type} [DecidableEq κ] {k k' : κ} (v : α)
    (d : Dict κ α) (h : k' ≠ k) :
    dictLookup k (dictInsert k' v d) = dictLookup k d := by
  simp [dictLookup_dictInsert, h]

theorem dictLookup_eq_none_iff {κ α : Type} [DecidableEq κ] (k : κ) (d : Dict κ α) :
    dictLookup k d = none ↔ k ∉ dictKeys d := by
  induction d with
  | nil => simp [dictLookup, dictKeys_nil]
  | cons kv rest ih =>
    obtain ⟨k₀, v₀⟩ := kv
    rw [dictKeys_cons]
    by_cases h₀ : k₀ = k
    · subst h₀; simp [dictLookup]
    · simp only [dictLookup, if_neg h₀]
      rw [ih]
      simp [Ne.symm h₀]

theorem dictInsert_of_absent {κ α : Type} [DecidableEq κ] {k : κ} (v : α)
    {d : Dict κ α} (h : dictLookup k d = none) :
    dictInsert k v d = d ++ [(k, v)] := by
  induction d with
  | nil => simp [dictInsert]
  | cons kv rest ih =>
    obtain ⟨k₀, v₀⟩ := kv
    by_cases h₀ : k₀ = k
    · subst h₀; simp [dictLookup] at h
    · simp [dictLookup, h₀] at h
      simp [dictInsert, h₀, ih h]

theorem dictKeys_dictInsert {κ α : Type} [DecidableEq κ] (k : κ) (v : α)
    (d : Dict κ α) :
    dictKeys (dictInsert k v d) = if k ∈ dictKeys d then dictKeys d else dictKeys d ++ [k] := by
  induction d with
  | nil => simp [dictInsert, dictKeys_nil, dictKeys_cons]
  | cons kv rest ih =>
    obtain ⟨k₀, v₀⟩ := kv
    by_cases h₀ : k₀ = k
    · subst h₀; simp [dictInsert, dictKeys_cons]
    · simp only [dictInsert, if_neg h₀, dictKeys_cons, ih, List.mem_cons]
      by_cases h₁ : k ∈ dictKeys rest
      · simp [h₁, Ne.symm h₀]
      · simp [h₁, Ne.symm h₀]

theorem dictKeys_dictInsert_nodup {κ α : Type} [DecidableEq κ] (k : κ) (v : α)
    {d : Dict κ α} (h : (dictKeys d).Nodup) :
    (dictKeys (dictInsert k v d)).Nodup := by
  rw [dictKeys_dictInsert]
  by_cases h₁ : k ∈ dictKeys d
  · rwa [if_pos h₁]
  · rw [if_neg h₁]
    refine List.Nodup.append h (List.nodup_singleton k) ?h
    intro a ha hmem
    rw [List.mem_singleton] at hmem
    exact h₁ (hmem ▸ ha)

theorem dictKeys_append {κ α : Type} (d₁ d₂ : Dict κ α) :
    dictKeys (d₁ ++ d₂) = dictKeys d₁ ++ dictKeys d₂ :=
  List.map_append _ _ _

/-- Merging a batch of requests whose keys are fresh and pairwise distinct
appends the corresponding entries in order. -/
theorem foldl_dictInsert_of_absent {κ α : Type} [DecidableEq κ] (f : α → κ)
    (reqs : List α) (m : Dict κ α)
    (hnd : (reqs.map f).Nodup)
    (habs : ∀ r ∈ reqs, dictLookup (f r) m = none) :
    reqs.foldl (fun d r => dictInsert (f r) r d) m = m ++ reqs.map (fun r => (f r, r)) := by
  induction reqs generalizing m with
  | nil => simp
  | cons r rest ih =>
    simp only [List.map_cons, List.nodup_cons] at hnd
    obtain ⟨hr, hrest⟩ := hnd
    have habs2 : ∀ q ∈ rest, dictLookup (f q) (m ++ [(f r, r)]) = none := by
      intro q hq
      rw [dictLookup_eq_none_iff, dictKeys_append, List.mem_append]
      push_neg
      constructor
      · exact (dictLookup_eq_none_iff (f q) m).mp (habs q (List.mem_cons_of_mem r hq))
      · simp only [dictKeys_cons, dictKeys_nil, List.mem_singleton]
        intro hEq
        exact hr (hEq ▸ List.mem_map_of_mem f hq)
    simp only [List.foldl_cons, List.map_cons]
    rw [dictInsert_of_absent r (habs r (List.mem_cons_self r rest)),
        ih (m ++ [(f r, r)]) hrest habs2]
    simp

/-- Re-inserting the entries of a unique-keyed dictionary into a disjoint
accumulator reproduces the dictionary. -/
theorem foldl_reinsert_of_nodup {κ α : Type} [DecidableEq κ] (m : Dict κ α)
    (acc : Dict κ α)
    (hnd : (dictKeys m).Nodup)
    (hdisj : ∀ k ∈ dictKeys m, dictLookup k acc = none) :
    m.foldl (fun r kv => dictInsert kv.1 kv.2 r) acc = acc ++ m := by
  induction m generalizing acc with
  | nil => simp
  | cons kv rest ih =>
    obtain ⟨k₀, v₀⟩ := kv
    rw [dictKeys_cons] at hnd hdisj
    rw [List.nodup_cons] at hnd
    obtain ⟨hk₀, hrest⟩ := hnd
    have habs2 : ∀ k ∈ dictKeys rest, dictLookup k (acc ++ [(k₀, v₀)]) = none := by
      intro k hk
      rw [dictLookup_eq_none_iff, dictKeys_append, List.mem_append]
      push_neg
      constructor
      · exact (dictLookup_eq_none_iff k acc).mp (hdisj k (List.mem_cons_of_mem _ hk))
      · simp only [dictKeys_cons, dictKeys_nil, List.mem_singleton]
        intro hEq
        exact hk₀ (hEq ▸ hk)
    simp only [List.foldl_cons]
    rw [dictInsert_of_absent v₀ (hdisj k₀ (List.mem_cons_self _ _)),
        ih (acc ++ [(k₀, v₀)]) hrest habs2]
    simp

/-- Merging a batch of requests preserves uniqueness of the keys. -/
theorem foldl_dictInsert_keys_nodup {κ α : Type} [DecidableEq κ] (f : α → κ)
    (reqs : List α) {m : Dict κ α} (h : (dictKeys m).Nodup) :
    (dictKeys (reqs.foldl (fun d r => dictInsert (f r) r d) m)).Nodup := by
  induction reqs generalizing m with
  | nil => simpa
  | cons r rest ih =>
    simp only [List.foldl_cons]
    exact ih (dictKeys_dictInsert_nodup _ _ h)

theorem dictKeys_map_pair {κ α : Type} (f : α → κ) (l : List α) :
    dictKeys (l.map (fun r => (f r, r))) = l.map f := by
  simp [dictKeys, List.map_map]

/-! ### Operation-level lemmas -/

theorem require_taskReqs_eq (s : Store) (p jr : Ref) (jp : JResourceProfile)
    (hpy : dictLookup p s.pyProfiles = some jr)
    (hj : dictLookup jr s.jProfiles = some jp) (t : TaskResourceRequests) :
    require s p (.taskReqs t) =
      .ok (p, s.setJ jr (jp.requireTask t._javaTaskResourceRequests)) := by
  simp [require, hpy, hj, isTaskResourceRequests, javaTaskResourceRequestsAttr]

theorem require_execReqs_eq (s : Store) (p jr : Ref) (jp : JResourceProfile)
    (hpy : dictLookup p s.pyProfiles = some jr)
    (hj : dictLookup jr s.jProfiles = some jp) (e : ExecutorResourceRequests) :
    require s p (.execReqs e) =
      .ok (p, s.setJ jr (jp.requireExec e._javaExecutorResourceRequests)) := by
  simp [require, hpy, hj, isTaskResourceRequests, javaExecutorResourceRequestsAttr]

/-- Any argument outside the `TaskResourceRequests` branch that lacks the
`_javaExecutorResourceRequests` attribute makes `require` raise, whatever
the store holds. -/
theorem require_no_attr_err (s : Store) (p : Ref) (arg : RequireArg)
    (h1 : isTaskResourceRequests arg = false)
    (h2 : javaExecutorResourceRequestsAttr arg = none) :
    require s p arg = .error .attributeError := by
  cases hpy : dictLookup p s.pyProfiles with
  | none => simp [require, hpy]
  | some jr =>
    cases hj : dictLookup jr s.jProfiles with
    | none => simp [require, hpy, hj]
    | some jp => simp [require, hpy, hj, h1, h2]

theorem require_ok_dest (s : Store) (p : Ref) (arg : RequireArg) (r : Ref) (s' : Store)
    (h : require s p arg = .ok (r, s')) :
    r = p ∧ s'.pyProfiles = s.pyProfiles ∧ s'.nextRef = s.nextRef := by
  unfold require at h
  split at h
  · exact absurd h (by simp)
  · split at h
    · exact absurd h (by simp)
    · split at h
      · split at h
        · exact absurd h (by simp)
        · simp only [Except.ok.injEq, Prod.mk.injEq] at h
          obtain ⟨rfl, rfl⟩ := h
          exact ⟨rfl, rfl, rfl⟩
      · split at h
        · exact absurd h (by simp)
        · simp only [Except.ok.injEq, Prod.mk.injEq] at h
          obtain ⟨rfl, rfl⟩ := h
          exact ⟨rfl, rfl, rfl⟩

theorem require_error_dest (s : Store) (p : Ref) (arg : RequireArg) (e : PyError)
    (h : require s p arg = .error e) : e = .attributeError := by
  unfold require at h
  split at h
  · exact (Except.error.inj h).symm
  · split at h
    · exact (Except.error.inj h).symm
    · split at h
      · split at h
        · exact (Except.error.inj h).symm
        · exact absurd h (by simp)
      · split at h
        · exact (Except.error.inj h).symm
        · exact absurd h (by simp)

theorem taskResources_eq (s : Store) (p jr : Ref) (jp : JResourceProfile)
    (hpy : dictLookup p s.pyProfiles = some jr)
    (hj : dictLookup jr s.jProfiles = some jp) :
    taskResources s p =
      .ok (jp.taskMap.foldl
             (fun result kv => dictInsert kv.1 ⟨kv.2.resourceName, kv.2.amount⟩ result) [],
           s) := by
  simp [taskResources, hpy, hj]

theorem executorResources_eq (s : Store) (p jr : Ref) (jp : JResourceProfile)
    (hpy : dictLookup p s.pyProfiles = some jr)
    (hj : dictLookup jr s.jProfiles = some jp) :
    executorResources s p =
      .ok (jp.execMap.foldl
             (fun result kv =>
               dictInsert kv.1 ⟨kv.2.resourceName, kv.2.amount, kv.2.discoveryScript, kv.2.vendor⟩ result) [],
           s) := by
  simp [executorResources, hpy, hj]

/-- When the JVM task map has unique keys, the accessor's rebuilt snapshot
is entrywise equal to it (each value is freshly reconstructed from its
fields, which by structure eta is the same value). -/
theorem taskResources_of_nodup (s : Store) (p jr : Ref) (jp : JResourceProfile)
    (hpy : dictLookup p s.pyProfiles = some jr)
    (hj : dictLookup jr s.jProfiles = some jp)
    (hnd : (dictKeys jp.taskMap).Nodup) :
    taskResources s p = .ok (jp.taskMap, s) := by
  rw [taskResources_eq s p jr jp hpy hj]
  have h2 : jp.taskMap.foldl
      (fun result kv => dictInsert kv.1 (⟨kv.2.resourceName, kv.2.amount⟩ : TaskResourceRequest) result) []
      = jp.taskMap :=
    foldl_reinsert_of_nodup jp.taskMap [] hnd (fun k hk => rfl)
  rw [h2]

theorem executorResources_of_nodup (s : Store) (p jr : Ref) (jp : JResourceProfile)
    (hpy : dictLookup p s.pyProfiles = some jr)
    (hj : dictLookup jr s.jProfiles = some jp)
    (hnd : (dictKeys jp.execMap).Nodup) :
    executorResources s p = .ok (jp.execMap, s) := by
  rw [executorResources_eq s p jr jp hpy hj]
  have h2 : jp.execMap.foldl
      (fun result kv =>
        dictInsert kv.1
          (⟨kv.2.resourceName, kv.2.amount, kv.2.discoveryScript, kv.2.vendor⟩ : ExecutorResourceRequest)
          result) []
      = jp.execMap :=
    foldl_reinsert_of_nodup jp.execMap [] hnd (fun k hk => rfl)
  rw [h2]

theorem taskResources_ok_dest (s : Store) (p : Ref)
    (d : Dict String TaskResourceRequest) (s' : Store)
    (h : taskResources s p = .ok (d, s')) : s' = s := by
  unfold taskResources at h
  split at h
  · exact absurd h (by simp)
  · split at h
    · exact absurd h (by simp)
    · simp only [Except.ok.injEq, Prod.mk.injEq] at h
      exact h.2.symm

theorem executorResources_ok_dest (s : Store) (p : Ref)
    (d : Dict String ExecutorResourceRequest) (s' : Store)
    (h : executorResources s p = .ok (d, s')) : s' = s := by
  unfold executorResources at h
  split at h
  · exact absurd h (by simp)
  · split at h
    · exact absurd h (by simp)
    · simp only [Except.ok.injEq, Prod.mk.injEq] at h
      exact h.2.symm

theorem taskResources_error_dest (s : Store) (p : Ref) (e : PyError)
    (h : taskResources s p = .error e) : e = .attributeError := by
  unfold taskResources at h
  split at h
  · exact (Except.error.inj h).symm
  · split at h
    · exact (Except.error.inj h).symm
    · exact absurd h (by simp)

theorem executorResources_error_dest (s : Store) (p : Ref) (e : PyError)
    (h : executorResources s p = .error e) : e = .attributeError := by
  unfold executorResources at h
  split at h
  · exact (Except.error.inj h).symm
  · split at h
    · exact (Except.error.inj h).symm
    · exact absurd h (by simp)

theorem runRequires_cons_ok (s : Store) (p : Ref) (a : RequireArg)
    (rest : List RequireArg) (r : Ref) (s' : Store)
    (h : require s p a = .ok (r, s')) :
    runRequires s p (a :: rest) = runRequires s' p rest := by
  show (match require s p a with
        | .error e => Except.error e
        | .ok (_, s₂) => runRequires s₂ p rest) = runRequires s' p rest
  rw [h]

/-- Running a sequence of batch `require` calls on a freshly constructed
profile succeeds and leaves the JVM profile holding the merged batches. -/
theorem runRequires_batches_concrete (args : List RequireArg)
    (hb : ∀ a ∈ args, isBatch a = true) (jp : JResourceProfile) :
    runRequires ⟨[(0, jp)], [(1, 0)], 2⟩ 1 args =
      .ok ⟨[(0, applyBatches jp args)], [(1, 0)], 2⟩ := by
  induction args generalizing jp with
  | nil => rfl
  | cons a rest ih =>
    have hbr : ∀ x ∈ rest, isBatch x = true := fun x hx => hb x (List.mem_cons_of_mem _ hx)
    cases a with
    | taskReqs t =>
      rw [runRequires_cons_ok _ _ _ _ 1 _
            (require_taskReqs_eq ⟨[(0, jp)], [(1, 0)], 2⟩ 1 0 jp rfl rfl t)]
      exact ih hbr (jp.requireTask t._javaTaskResourceRequests)
    | execReqs e =>
      rw [runRequires_cons_ok _ _ _ _ 1 _
            (require_execReqs_eq ⟨[(0, jp)], [(1, 0)], 2⟩ 1 0 jp rfl rfl e)]
      exact ih hbr (jp.requireExec e._javaExecutorResourceRequests)
    | taskReq t => exact absurd (hb _ (List.mem_cons_self _ _)) (by simp [isBatch])
    | execReq e => exact absurd (hb _ (List.mem_cons_self _ _)) (by simp [isBatch])
    | other tag => exact absurd (hb _ (List.mem_cons_self _ _)) (by simp [isBatch])

/-- When the task resource names of a call sequence are pairwise distinct
and absent from the starting task map, the merged task map is the starting
map followed by one entry per request, in call order. -/
theorem applyBatches_taskMap (args : List RequireArg) (jp : JResourceProfile)
    (hnd : ((taskEntriesOf args).map TaskResourceRequest.resourceName).Nodup)
    (habs : ∀ r ∈ taskEntriesOf args, dictLookup r.resourceName jp.taskMap = none) :
    (applyBatches jp args).taskMap =
      jp.taskMap ++ (taskEntriesOf args).map (fun r => (r.resourceName, r)) := by
  induction args generalizing jp with
  | nil => simp [applyBatches, taskEntriesOf]
  | cons a rest ih =>
    cases a with
    | taskReqs t =>
      have hsplit : taskEntriesOf (RequireArg.taskReqs t :: rest)
          = t._javaTaskResourceRequests ++ taskEntriesOf rest := rfl
      rw [hsplit] at hnd habs
      rw [hsplit, List.map_append]
      rw [List.map_append] at hnd
      have hndA := hnd.of_append_left
      have hndB := hnd.of_append_right
      have hdisj := List.disjoint_of_nodup_append hnd
      have habsA : ∀ r ∈ t._javaTaskResourceRequests,
          dictLookup r.resourceName jp.taskMap = none :=
        fun r hr => habs r (List.mem_append_left _ hr)
      have hstep : (jp.requireTask t._javaTaskResourceRequests).taskMap
          = jp.taskMap ++ t._javaTaskResourceRequests.map (fun r => (r.resourceName, r)) :=
        foldl_dictInsert_of_absent TaskResourceRequest.resourceName _ jp.taskMap hndA habsA
      have habsB : ∀ r ∈ taskEntriesOf rest,
          dictLookup r.resourceName (jp.requireTask t._javaTaskResourceRequests).taskMap
            = none := by
        intro r hr
        rw [hstep, dictLookup_eq_none_iff, dictKeys_append, List.mem_append]
        push_neg
        constructor
        · exact (dictLookup_eq_none_iff _ _).mp (habs r (List.mem_append_right _ hr))
        · rw [dictKeys_map_pair]
          intro hmem
          exact hdisj hmem (List.mem_map.mpr ⟨r, hr, rfl⟩)
      have hrec := ih (jp.requireTask t._javaTaskResourceRequests) hndB habsB
      rw [show applyBatches jp (RequireArg.taskReqs t :: rest)
            = applyBatches (jp.requireTask t._javaTaskResourceRequests) rest from rfl,
          hrec, hstep, List.append_assoc]
    | execReqs e => exact ih (jp.requireExec e._javaExecutorResourceRequests) hnd habs
    | taskReq t => exact ih jp hnd habs
    | execReq x => exact ih jp hnd habs
    | other tag => exact ih jp hnd habs

/-- Executor-side mirror of `applyBatches_taskMap`. -/
theorem applyBatches_execMap (args : List RequireArg) (jp : JResourceProfile)
    (hnd : ((execEntriesOf args).map ExecutorResourceRequest.resourceName).Nodup)
    (habs : ∀ r ∈ execEntriesOf args, dictLookup r.resourceName jp.execMap = none) :
    (applyBatches jp args).execMap =
      jp.execMap ++ (execEntriesOf args).map (fun r => (r.resourceName, r)) := by
  induction args generalizing jp with
  | nil => simp [applyBatches, execEntriesOf]
  | cons a rest ih =>
    cases a with
    | execReqs e =>
      have hsplit : execEntriesOf (RequireArg.execReqs e :: rest)
          = e._javaExecutorResourceRequests ++ execEntriesOf rest := rfl
      rw [hsplit] at hnd habs
      rw [hsplit, List.map_append]
      rw [List.map_append] at hnd
      have hndA := hnd.of_append_left
      have hndB := hnd.of_append_right
      have hdisj := List.disjoint_of_nodup_append hnd
      have habsA : ∀ r ∈ e._javaExecutorResourceRequests,
          dictLookup r.resourceName jp.execMap = none :=
        fun r hr => habs r (List.mem_append_left _ hr)
      have hstep : (jp.requireExec e._javaExecutorResourceRequests).execMap
          = jp.execMap ++ e._javaExecutorResourceRequests.map (fun r => (r.resourceName, r)) :=
        foldl_dictInsert_of_absent ExecutorResourceRequest.resourceName _ jp.execMap hndA habsA
      have habsB : ∀ r ∈ execEntriesOf rest,
          dictLookup r.resourceName (jp.requireExec e._javaExecutorResourceRequests).execMap
            = none := by
        intro r hr
        rw [hstep, dictLookup_eq_none_iff, dictKeys_append, List.mem_append]
        push_neg
        constructor
        · exact (dictLookup_eq_none_iff _ _).mp (habs r (List.mem_append_right _ hr))
        · rw [dictKeys_map_pair]
          intro hmem
          exact hdisj hmem (List.mem_map.mpr ⟨r, hr, rfl⟩)
      have hrec := ih (jp.requireExec e._javaExecutorResourceRequests) hndB habsB
      rw [show applyBatches jp (RequireArg.execReqs e :: rest)
            = applyBatches (jp.requireExec e._javaExecutorResourceRequests) rest from rfl,
          hrec, hstep, List.append_assoc]
    | taskReqs t => exact ih (jp.requireTask t._javaTaskResourceRequests) hnd habs
    | taskReq t => exact ih jp hnd habs
    | execReq x => exact ih jp hnd habs
    | other tag => exact ih jp hnd habs

/-- A successful `require` call keeps every JVM mapping uniquely keyed. -/
theorem require_preserves_uniqueNames (s : Store) (hs : uniqueNames s) (p : Ref)
    (arg : RequireArg) (r : Ref) (s' : Store) (h : require s p arg = .ok (r, s')) :
    uniqueNames s' := by
  unfold require at h
  split at h
  · exact absurd h (by simp)
  next jr hpy =>
    split at h
    · exact absurd h (by simp)
    next jp hj =>
      split at h
      · split at h
        · exact absurd h (by simp)
        next reqs hattr =>
          simp only [Except.ok.injEq, Prod.mk.injEq] at h
          obtain ⟨rfl, rfl⟩ := h
          intro r₀ jp₀ h₀
          rw [show (Store.setJ s jr (jp.requireTask reqs)).jProfiles
                = dictInsert jr (jp.requireTask reqs) s.jProfiles from rfl,
              dictLookup_dictInsert] at h₀
          split at h₀
          · cases Option.some.inj h₀
            exact ⟨foldl_dictInsert_keys_nodup TaskResourceRequest.resourceName reqs
                     (hs jr jp hj).1,
                   (hs jr jp hj).2⟩
          · exact hs r₀ jp₀ h₀
      · split at h
        · exact absurd h (by simp)
        next reqs hattr =>
          simp only [Except.ok.injEq, Prod.mk.injEq] at h
          obtain ⟨rfl, rfl⟩ := h
          intro r₀ jp₀ h₀
          rw [show (Store.setJ s jr (jp.requireExec reqs)).jProfiles
                = dictInsert jr (jp.requireExec reqs) s.jProfiles from rfl,
              dictLookup_dictInsert] at h₀
          split at h₀
          · cases Option.some.inj h₀
            exact ⟨(hs jr jp hj).1,
                   foldl_dictInsert_keys_nodup ExecutorResourceRequest.resourceName reqs
                     (hs jr jp hj).2⟩
          · exact hs r₀ jp₀ h₀

/-! ### Claims -/

/-- C5: a freshly constructed `ResourceProfile` (`construct` with no
external handle supplied) has an empty `taskResources` mapping and an
empty `executorResources` mapping. -/
theorem c5_fresh_profile_empty (s : Store) :
    taskResources (construct s).2 (construct s).1 = .ok ([], (construct s).2) ∧
    executorResources (construct s).2 (construct s).1 = .ok ([], (construct s).2) :=
  ⟨taskResources_of_nodup (construct s).2 (construct s).1 s.nextRef ⟨[], []⟩
     (dictLookup_dictInsert_same _ _ _) (dictLookup_dictInsert_same _ _ _) List.nodup_nil,
   executorResources_of_nodup (construct s).2 (construct s).1 s.nextRef ⟨[], []⟩
     (dictLookup_dictInsert_same _ _ _) (dictLookup_dictInsert_same _ _ _) List.nodup_nil⟩

/-- C4: whenever `require` completes (returns), the profile reference it
returns is the very same profile `p` it was called on, so calls chain
fluently. -/
theorem c4_require_returns_same_profile (s : Store) (p : Ref) (arg : RequireArg)
    (r : Ref) (s' : Store) (h : require s p arg = .ok (r, s')) : r = p :=
  (require_ok_dest s p arg r s' h).1

/-- Witness for C4: on a fresh profile and a concrete task batch,
`require` returns reference 1 — the profile it was called on. -/
theorem c4_require_returns_same_profile_witness : (1 : Ref) = (construct Store.empty).1 :=
  c4_require_returns_same_profile (construct Store.empty).2 (construct Store.empty).1
    (.taskReqs ⟨[⟨"cpus", 2⟩]⟩) 1
    ⟨[(0, ⟨[("cpus", ⟨"cpus", 2⟩)], []⟩)], [(1, 0)], 2⟩ rfl

/-- C9: a completed `require` call leaves every Python wrapper's
`_jResourceProfile` binding — in particular the callee's — exactly as it
was: the wrapper still refers to the identical JVM object. -/
theorem c9_require_preserves_handle (s : Store) (p : Ref) (arg : RequireArg)
    (r : Ref) (s' : Store) (h : require s p arg = .ok (r, s')) :
    s'.pyProfiles = s.pyProfiles ∧
    dictLookup p s'.pyProfiles = dictLookup p s.pyProfiles := by
  obtain ⟨-, hpy, -⟩ := require_ok_dest s p arg r s' h
  exact ⟨hpy, by rw [hpy]⟩

/-- Witness for C9 at a concrete `require` call on a fresh profile. -/
theorem c9_require_preserves_handle_witness :
    (⟨[(0, ⟨[("cpus", ⟨"cpus", 2⟩)], []⟩)], [(1, 0)], 2⟩ : Store).pyProfiles
        = (construct Store.empty).2.pyProfiles ∧
    dictLookup 1 (⟨[(0, ⟨[("cpus", ⟨"cpus", 2⟩)], []⟩)], [(1, 0)], 2⟩ : Store).pyProfiles
        = dictLookup 1 (construct Store.empty).2.pyProfiles :=
  c9_require_preserves_handle (construct Store.empty).2 (construct Store.empty).1
    (.taskReqs ⟨[⟨"cpus", 2⟩]⟩) 1
    ⟨[(0, ⟨[("cpus", ⟨"cpus", 2⟩)], []⟩)], [(1, 0)], 2⟩ rfl

/-- C7: the two accessors return snapshots.  Reading leaves the store —
hence the profile's internal state — unchanged, and a second read returns
the same freshly rebuilt mapping; whatever different mapping the caller
turned its copy into is not what a subsequent read yields. -/
theorem c7_accessors_return_snapshots (s : Store) (p : Ref)
    (d : Dict String TaskResourceRequest) (e : Dict String ExecutorResourceRequest)
    (s₁ s₂ : Store)
    (ht : taskResources s p = .ok (d, s₁))
    (he : executorResources s p = .ok (e, s₂))
    (mutT : Dict String TaskResourceRequest → Dict String TaskResourceRequest)
    (mutE : Dict String ExecutorResourceRequest → Dict String ExecutorResourceRequest)
    (hmT : mutT d ≠ d) (hmE : mutE e ≠ e) :
    s₁ = s ∧ s₂ = s ∧
    taskResources s₁ p = .ok (d, s₁) ∧
    executorResources s₂ p = .ok (e, s₂) ∧
    taskResources s₁ p ≠ .ok (mutT d, s₁) ∧
    executorResources s₂ p ≠ .ok (mutE e, s₂) := by
  have h1 := taskResources_ok_dest s p d s₁ ht
  have h2 := executorResources_ok_dest s p e s₂ he
  subst h1
  subst h2
  refine ⟨rfl, rfl, ht, he, ?hT, ?hE⟩
  · intro hbad
    rw [ht] at hbad
    simp only [Except.ok.injEq, Prod.mk.injEq] at hbad
    exact hmT hbad.1.symm
  · intro hbad
    rw [he] at hbad
    simp only [Except.ok.injEq, Prod.mk.injEq] at hbad
    exact hmE hbad.1.symm

/-- Witness for C7: reading a fresh profile, then "mutating" the returned
empty dict into a nonempty one. -/
theorem c7_accessors_return_snapshots_witness :
    (construct Store.empty).2 = (construct Store.empty).2 ∧
    (construct Store.empty).2 = (construct Store.empty).2 ∧
    taskResources (construct Store.empty).2 (construct Store.empty).1 =
      .ok ([], (construct Store.empty).2) ∧
    executorResources (construct Store.empty).2 (construct Store.empty).1 =
      .ok ([], (construct Store.empty).2) ∧
    taskResources (construct Store.empty).2 (construct Store.empty).1 ≠
      .ok ([("cpus", ⟨"cpus", 2⟩)], (construct Store.empty).2) ∧
    executorResources (construct Store.empty).2 (construct Store.empty).1 ≠
      .ok ([("gpu", ⟨"gpu", 1, "", ""⟩)], (construct Store.empty).2) :=
  c7_accessors_return_snapshots (construct Store.empty).2 (construct Store.empty).1
    [] [] (construct Store.empty).2 (construct Store.empty).2 rfl rfl
    (fun _ => [("cpus", ⟨"cpus", 2⟩)]) (fun _ => [("gpu", ⟨"gpu", 1, "", ""⟩)])
    (by decide) (by decide)

/-- C8: an argument of an unrecognized type makes `require` raise the host
language's generic dynamic type-error — Python's `AttributeError` from the
duck-typed attribute lookup — immediately (the remainder of a call
sequence is not executed, nothing is retried or recovered), and neither
`require` nor the two accessors ever produce any other error. -/
theorem c8_unrecognized_type_raises (s : Store) (p : Ref) (tag : String)
    (rest : List RequireArg)
    (s₂ : Store) (p₂ : Ref) (arg : RequireArg) (e : PyError)
    (h : require s₂ p₂ arg = .error e)
    (s₃ : Store) (p₃ : Ref) (et : PyError) (ht : taskResources s₃ p₃ = .error et)
    (s₄ : Store) (p₄ : Ref) (ee : PyError) (he : executorResources s₄ p₄ = .error ee) :
    require s p (.other tag) = .error .attributeError ∧
    runRequires s p (.other tag :: rest) = .error .attributeError ∧
    e = .attributeError ∧ et = .attributeError ∧ ee = .attributeError := by
  have h0 : require s p (.other tag) = .error .attributeError :=
    require_no_attr_err s p (.other tag) rfl rfl
  refine ⟨h0, ?hrun, require_error_dest _ _ _ _ h,
          taskResources_error_dest _ _ _ ht, executorResources_error_dest _ _ _ he⟩
  show (match require s p (RequireArg.other tag) with
        | .error e => Except.error e
        | .ok (_, s₂) => runRequires s₂ p rest) = .error .attributeError
  rw [h0]

/-- Witness for C8 at concrete inputs: an `int`-like argument on a fresh
profile, and error results obtained on an unallocated reference. -/
theorem c8_unrecognized_type_raises_witness :
    require (construct Store.empty).2 1 (.other "int") = .error .attributeError ∧
    runRequires (construct Store.empty).2 1 [.other "int", .taskReqs ⟨[⟨"cpus", 2⟩]⟩] =
      .error .attributeError ∧
    PyError.attributeError = .attributeError ∧
    PyError.attributeError = .attributeError ∧
    PyError.attributeError = .attributeError :=
  c8_unrecognized_type_raises (construct Store.empty).2 1 "int"
    [.taskReqs ⟨[⟨"cpus", 2⟩]⟩]
    Store.empty 0 (.other "str") .attributeError rfl
    Store.empty 0 .attributeError rfl
    Store.empty 0 .attributeError rfl

/-- C10: `require`'s dispatch tests only `isinstance(·,
TaskResourceRequests)`; every other argument is handled by the else
branch, which forwards whatever the argument's
`_javaExecutorResourceRequests` attribute yields to the executor side.  A
bare `TaskResourceRequest` lacks that attribute, so passing one raises
AttributeError and it is never merged into the task mapping. -/
theorem c10_dispatch_is_executor_sided (s : Store) (p jr : Ref) (jp : JResourceProfile)
    (hpy : dictLookup p s.pyProfiles = some jr)
    (hj : dictLookup jr s.jProfiles = some jp)
    (arg : RequireArg) (harg : isTaskResourceRequests arg = false)
    (s₂ : Store) (p₂ : Ref) (t : TaskResourceRequest) :
    require s p arg =
      (match javaExecutorResourceRequestsAttr arg with
       | none => Except.error PyError.attributeError
       | some reqs => Except.ok (p, s.setJ jr (jp.requireExec reqs))) ∧
    isTaskResourceRequests (RequireArg.taskReq t) = false ∧
    javaExecutorResourceRequestsAttr (RequireArg.taskReq t) = none ∧
    require s₂ p₂ (.taskReq t) = .error .attributeError := by
  refine ⟨?h1, rfl, rfl, require_no_attr_err s₂ p₂ (.taskReq t) rfl rfl⟩
  cases arg with
  | taskReq t₂ => exact require_no_attr_err s p _ rfl rfl
  | execReq e₂ => exact require_no_attr_err s p _ rfl rfl
  | taskReqs t₂ => exact absurd harg (by simp [isTaskResourceRequests])
  | execReqs e₂ => exact require_execReqs_eq s p jr jp hpy hj e₂
  | other tag => exact require_no_attr_err s p _ rfl rfl

/-- Witness for C10 at concrete inputs. -/
theorem c10_dispatch_is_executor_sided_witness :
    require (construct Store.empty).2 1 (.other "int") = .error .attributeError ∧
    isTaskResourceRequests (RequireArg.taskReq ⟨"cpus", 2⟩) = false ∧
    javaExecutorResourceRequestsAttr (RequireArg.taskReq ⟨"cpus", 2⟩) = none ∧
    require (construct Store.empty).2 1 (.taskReq ⟨"cpus", 2⟩) = .error .attributeError :=
  c10_dispatch_is_executor_sided (construct Store.empty).2 1 0 ⟨[], []⟩ rfl rfl
    (.other "int") rfl (construct Store.empty).2 1 ⟨"cpus", 2⟩

/-- C1 counterexample: contrary to the claim, passing a single
`TaskResourceRequest` to `require` does not succeed — on a freshly
constructed profile the call raises AttributeError and `taskResources`
stays empty, so nothing was merged. -/
theorem c1_counterexample_single_task_request_fails :
    require (construct Store.empty).2 (construct Store.empty).1
        (RequireArg.taskReq ⟨"cpus", 2⟩) = Except.error PyError.attributeError ∧
    taskResources (construct Store.empty).2 (construct Store.empty).1 =
      Except.ok ([], (construct Store.empty).2) :=
  ⟨rfl, rfl⟩

/-- C1 (amended): `require` succeeds exactly on the batch containers and
merges their name→request entries into the profile's corresponding JVM
mapping — a `TaskResourceRequests` batch into the task mapping, an
`ExecutorResourceRequests` batch into the executor mapping; a single
`TaskResourceRequest` or `ExecutorResourceRequest` lacks the
`_javaExecutorResourceRequests` attribute the else branch reads, so the
call raises AttributeError instead of succeeding. -/
theorem c1_amended_require_merges_batches (s : Store) (p jr : Ref)
    (jp : JResourceProfile)
    (hpy : dictLookup p s.pyProfiles = some jr)
    (hj : dictLookup jr s.jProfiles = some jp)
    (tb : TaskResourceRequests) (eb : ExecutorResourceRequests)
    (t : TaskResourceRequest) (ex : ExecutorResourceRequest) :
    require s p (.taskReqs tb) =
      .ok (p, s.setJ jr (jp.requireTask tb._javaTaskResourceRequests)) ∧
    require s p (.execReqs eb) =
      .ok (p, s.setJ jr (jp.requireExec eb._javaExecutorResourceRequests)) ∧
    require s p (.taskReq t) = .error .attributeError ∧
    require s p (.execReq ex) = .error .attributeError :=
  ⟨require_taskReqs_eq s p jr jp hpy hj tb,
   require_execReqs_eq s p jr jp hpy hj eb,
   require_no_attr_err s p _ rfl rfl,
   require_no_attr_err s p _ rfl rfl⟩

/-- Witness for the amended C1 at concrete inputs on a fresh profile. -/
theorem c1_amended_require_merges_batches_witness :
    require (construct Store.empty).2 1 (.taskReqs ⟨[⟨"cpus", 2⟩]⟩) =
      .ok (1, ⟨[(0, ⟨[("cpus", ⟨"cpus", 2⟩)], []⟩)], [(1, 0)], 2⟩) ∧
    require (construct Store.empty).2 1
        (.execReqs ⟨[⟨"gpu", 1, "/scripts/findGpu.sh", "nvidia"⟩]⟩) =
      .ok (1, ⟨[(0, ⟨[], [("gpu", ⟨"gpu", 1, "/scripts/findGpu.sh", "nvidia"⟩)]⟩)],
               [(1, 0)], 2⟩) ∧
    require (construct Store.empty).2 1 (.taskReq ⟨"cpus", 2⟩) =
      .error .attributeError ∧
    require (construct Store.empty).2 1 (.execReq ⟨"gpu", 1, "", ""⟩) =
      .error .attributeError :=
  c1_amended_require_merges_batches (construct Store.empty).2 1 0 ⟨[], []⟩ rfl rfl
    ⟨[⟨"cpus", 2⟩]⟩ ⟨[⟨"gpu", 1, "/scripts/findGpu.sh", "nvidia"⟩]⟩
    ⟨"cpus", 2⟩ ⟨"gpu", 1, "", ""⟩

/-- C3 counterexample: the claim's own example, run literally — bare
`TaskResourceRequest("cpus", 2)` then bare `TaskResourceRequest("cpus",
4)` — does not leave `taskResources` equal to `{"cpus":
TaskResourceRequest("cpus", 4)}`: the first call already raises
AttributeError and the mapping stays empty. -/
theorem c3_counterexample_bare_example_fails :
    runRequires (construct Store.empty).2 (construct Store.empty).1
        [RequireArg.taskReq ⟨"cpus", 2⟩, RequireArg.taskReq ⟨"cpus", 4⟩] =
      Except.error PyError.attributeError ∧
    taskResources (construct Store.empty).2 (construct Store.empty).1 =
      Except.ok ([], (construct Store.empty).2) ∧
    ([] : Dict String TaskResourceRequest) ≠ [("cpus", ⟨"cpus", 4⟩)] :=
  ⟨rfl, rfl, by decide⟩

/-- C3 (amended): within a profile resource names are unique per mapping,
and every operation preserves the invariant; a successful `require` for a
name already present overwrites the earlier request (last-write-wins); the
"cpus" example holds once each request is wrapped in a
`TaskResourceRequests` batch, which is the form `require` accepts. -/
theorem c3_amended_unique_names_last_write_wins (s : Store) (hs : uniqueNames s)
    (jr p : Ref) (arg : RequireArg) (r : Ref) (s' : Store)
    (h : require s p arg = .ok (r, s'))
    (d : Dict String TaskResourceRequest) (n : String) (t₁ t₂ : TaskResourceRequest) :
    uniqueNames (construct s).2 ∧
    uniqueNames (constructWithHandle s jr).2 ∧
    uniqueNames s' ∧
    dictLookup n (dictInsert n t₂ (dictInsert n t₁ d)) = some t₂ ∧
    runRequires (construct Store.empty).2 (construct Store.empty).1
        [RequireArg.taskReqs ⟨[⟨"cpus", 2⟩]⟩, RequireArg.taskReqs ⟨[⟨"cpus", 4⟩]⟩] =
      Except.ok ⟨[(0, ⟨[("cpus", ⟨"cpus", 4⟩)], []⟩)], [(1, 0)], 2⟩ ∧
    taskResources ⟨[(0, ⟨[("cpus", ⟨"cpus", 4⟩)], []⟩)], [(1, 0)], 2⟩
        (construct Store.empty).1 =
      Except.ok ([("cpus", ⟨"cpus", 4⟩)],
        ⟨[(0, ⟨[("cpus", ⟨"cpus", 4⟩)], []⟩)], [(1, 0)], 2⟩) := by
  refine ⟨?hc, hs, require_preserves_uniqueNames s hs p arg r s' h,
          dictLookup_dictInsert_same n t₂ _, rfl, rfl⟩
  intro r₀ jp₀ h₀
  rw [show (construct s).2.jProfiles = dictInsert s.nextRef ⟨[], []⟩ s.jProfiles from rfl,
      dictLookup_dictInsert] at h₀
  split at h₀
  · cases Option.some.inj h₀
    exact ⟨List.nodup_nil, List.nodup_nil⟩
  · exact hs r₀ jp₀ h₀

/-- Witness for the amended C3 at concrete inputs. -/
theorem c3_amended_unique_names_last_write_wins_witness :
    uniqueNames (construct (construct Store.empty).2).2 ∧
    uniqueNames (constructWithHandle (construct Store.empty).2 0).2 ∧
    uniqueNames (⟨[(0, ⟨[("cpus", ⟨"cpus", 2⟩)], []⟩)], [(1, 0)], 2⟩ : Store) ∧
    dictLookup "cpus"
        (dictInsert "cpus" ⟨"cpus", 4⟩ (dictInsert "cpus" (⟨"cpus", 2⟩ : TaskResourceRequest) [])) =
      some ⟨"cpus", 4⟩ ∧
    runRequires (construct Store.empty).2 (construct Store.empty).1
        [RequireArg.taskReqs ⟨[⟨"cpus", 2⟩]⟩, RequireArg.taskReqs ⟨[⟨"cpus", 4⟩]⟩] =
      Except.ok ⟨[(0, ⟨[("cpus", ⟨"cpus", 4⟩)], []⟩)], [(1, 0)], 2⟩ ∧
    taskResources ⟨[(0, ⟨[("cpus", ⟨"cpus", 4⟩)], []⟩)], [(1, 0)], 2⟩
        (construct Store.empty).1 =
      Except.ok ([("cpus", ⟨"cpus", 4⟩)],
        ⟨[(0, ⟨[("cpus", ⟨"cpus", 4⟩)], []⟩)], [(1, 0)], 2⟩) :=
  c3_amended_unique_names_last_write_wins (construct Store.empty).2
    (by
      intro r jp h
      simp only [dictLookup] at h
      split at h
      · cases Option.some.inj h
        exact ⟨List.nodup_nil, List.nodup_nil⟩
      · exact absurd h (by simp))
    0 1 (.taskReqs ⟨[⟨"cpus", 2⟩]⟩) 1
    ⟨[(0, ⟨[("cpus", ⟨"cpus", 2⟩)], []⟩)], [(1, 0)], 2⟩ rfl
    [] "cpus" ⟨"cpus", 2⟩ ⟨"cpus", 4⟩

/-- C6 counterexample: the claim's example passes a bare
`ExecutorResourceRequest("gpu", 1, "/scripts/findGpu.sh", "nvidia")` to
`require`; on a fresh profile that call raises AttributeError, and
`executorResources` has no "gpu" entry at all. -/
theorem c6_counterexample_bare_executor_request_fails :
    require (construct Store.empty).2 (construct Store.empty).1
        (RequireArg.execReq ⟨"gpu", 1, "/scripts/findGpu.sh", "nvidia"⟩) =
      Except.error PyError.attributeError ∧
    executorResources (construct Store.empty).2 (construct Store.empty).1 =
      Except.ok ([], (construct Store.empty).2) ∧
    dictLookup "gpu" ([] : Dict String ExecutorResourceRequest) = none :=
  ⟨rfl, rfl, rfl⟩

/-- C6 (amended): after `require` of an `ExecutorResourceRequests` batch
holding the request `("gpu", 1, "/scripts/findGpu.sh", "nvidia")`, the
`executorResources` accessor maps "gpu" to an `ExecutorResourceRequest`
whose four fields — optional metadata included — are exactly the supplied
values; the bare single-request form of the call instead raises. -/
theorem c6_amended_gpu_all_fields_roundtrip :
    require (construct Store.empty).2 (construct Store.empty).1
        (RequireArg.execReqs ⟨[⟨"gpu", 1, "/scripts/findGpu.sh", "nvidia"⟩]⟩) =
      Except.ok ((construct Store.empty).1,
        ⟨[(0, ⟨[], [("gpu", ⟨"gpu", 1, "/scripts/findGpu.sh", "nvidia"⟩)]⟩)],
         [(1, 0)], 2⟩) ∧
    executorResources
        ⟨[(0, ⟨[], [("gpu", ⟨"gpu", 1, "/scripts/findGpu.sh", "nvidia"⟩)]⟩)],
         [(1, 0)], 2⟩
        (construct Store.empty).1 =
      Except.ok ([("gpu", ⟨"gpu", 1, "/scripts/findGpu.sh", "nvidia"⟩)],
        ⟨[(0, ⟨[], [("gpu", ⟨"gpu", 1, "/scripts/findGpu.sh", "nvidia"⟩)]⟩)],
         [(1, 0)], 2⟩) ∧
    dictLookup "gpu"
        [("gpu", (⟨"gpu", 1, "/scripts/findGpu.sh", "nvidia"⟩ : ExecutorResourceRequest))] =
      some ⟨"gpu", 1, "/scripts/findGpu.sh", "nvidia"⟩ ∧
    (⟨"gpu", 1, "/scripts/findGpu.sh", "nvidia"⟩ : ExecutorResourceRequest).resourceName
      = "gpu" ∧
    (⟨"gpu", 1, "/scripts/findGpu.sh", "nvidia"⟩ : ExecutorResourceRequest).amount = 1 ∧
    (⟨"gpu", 1, "/scripts/findGpu.sh", "nvidia"⟩ : ExecutorResourceRequest).discoveryScript
      = "/scripts/findGpu.sh" ∧
    (⟨"gpu", 1, "/scripts/findGpu.sh", "nvidia"⟩ : ExecutorResourceRequest).vendor
      = "nvidia" :=
  ⟨rfl, rfl, rfl, rfl, rfl, rfl, rfl⟩

/-- C2: for every sequence of `require` calls (batch containers — the only
arguments on which a call completes) on a fresh profile whose task
resource names are pairwise distinct and whose executor resource names are
pairwise distinct, the sequence succeeds; `taskResources` and
`executorResources` read afterwards contain exactly those names, each
mapped to the (only, hence last) request specified for it, and no other
entries. -/
theorem c2_distinct_names_read_back_exactly (args : List RequireArg)
    (hb : ∀ a ∈ args, isBatch a = true)
    (hndT : ((taskEntriesOf args).map TaskResourceRequest.resourceName).Nodup)
    (hndE : ((execEntriesOf args).map ExecutorResourceRequest.resourceName).Nodup) :
    runRequires (construct Store.empty).2 (construct Store.empty).1 args =
      .ok ⟨[(0, applyBatches ⟨[], []⟩ args)], [(1, 0)], 2⟩ ∧
    taskResources ⟨[(0, applyBatches ⟨[], []⟩ args)], [(1, 0)], 2⟩
        (construct Store.empty).1 =
      .ok ((taskEntriesOf args).map (fun r => (r.resourceName, r)),
           ⟨[(0, applyBatches ⟨[], []⟩ args)], [(1, 0)], 2⟩) ∧
    executorResources ⟨[(0, applyBatches ⟨[], []⟩ args)], [(1, 0)], 2⟩
        (construct Store.empty).1 =
      .ok ((execEntriesOf args).map (fun r => (r.resourceName, r)),
           ⟨[(0, applyBatches ⟨[], []⟩ args)], [(1, 0)], 2⟩) := by
  have htm : (applyBatches ⟨[], []⟩ args).taskMap
      = (taskEntriesOf args).map (fun r => (r.resourceName, r)) :=
    applyBatches_taskMap args ⟨[], []⟩ hndT (fun r hr => rfl)
  have hem : (applyBatches ⟨[], []⟩ args).execMap
      = (execEntriesOf args).map (fun r => (r.resourceName, r)) :=
    applyBatches_execMap args ⟨[], []⟩ hndE (fun r hr => rfl)
  refine ⟨runRequires_batches_concrete args hb ⟨[], []⟩, ?ht, ?he⟩
  · have hr := taskResources_of_nodup
      ⟨[(0, applyBatches ⟨[], []⟩ args)], [(1, 0)], 2⟩ 1 0
      (applyBatches ⟨[], []⟩ args) rfl rfl
      (by rw [htm, dictKeys_map_pair]; exact hndT)
    rw [htm] at hr
    exact hr
  · have hr := executorResources_of_nodup
      ⟨[(0, applyBatches ⟨[], []⟩ args)], [(1, 0)], 2⟩ 1 0
      (applyBatches ⟨[], []⟩ args) rfl rfl
      (by rw [hem, dictKeys_map_pair]; exact hndE)
    rw [hem] at hr
    exact hr

/-- Witness for C2: a two-call sequence, one task batch and one executor
batch, with distinct names. -/
theorem c2_distinct_names_read_back_exactly_witness :
    runRequires (construct Store.empty).2 (construct Store.empty).1
        [RequireArg.taskReqs ⟨[⟨"cpus", 2⟩]⟩,
         RequireArg.execReqs ⟨[⟨"gpu", 1, "/scripts/findGpu.sh", "nvidia"⟩]⟩] =
      .ok ⟨[(0, ⟨[("cpus", ⟨"cpus", 2⟩)],
               [("gpu", ⟨"gpu", 1, "/scripts/findGpu.sh", "nvidia"⟩)]⟩)],
           [(1, 0)], 2⟩ ∧
    taskResources
        ⟨[(0, ⟨[("cpus", ⟨"cpus", 2⟩)],
             [("gpu", ⟨"gpu", 1, "/scripts/findGpu.sh", "nvidia"⟩)]⟩)],
         [(1, 0)], 2⟩
        (construct Store.empty).1 =
      .ok ([("cpus", ⟨"cpus", 2⟩)],
           ⟨[(0, ⟨[("cpus", ⟨"cpus", 2⟩)],
                [("gpu", ⟨"gpu", 1, "/scripts/findGpu.sh", "nvidia"⟩)]⟩)],
            [(1, 0)], 2⟩) ∧
    executorResources
        ⟨[(0, ⟨[("cpus", ⟨"cpus", 2⟩)],
             [("gpu", ⟨"gpu", 1, "/scripts/findGpu.sh", "nvidia"⟩)]⟩)],
         [(1, 0)], 2⟩
        (construct Store.empty).1 =
      .ok ([("gpu", ⟨"gpu", 1, "/scripts/findGpu.sh", "nvidia"⟩)],
           ⟨[(0, ⟨[("cpus", ⟨"cpus", 2⟩)],
                [("gpu", ⟨"gpu", 1, "/scripts/findGpu.sh", "nvidia"⟩)]⟩)],
            [(1, 0)], 2⟩) :=
  c2_distinct_names_read_back_exactly
    [RequireArg.taskReqs ⟨[⟨"cpus", 2⟩]⟩,
     RequireArg.execReqs ⟨[⟨"gpu", 1, "/scripts/findGpu.sh", "nvidia"⟩]⟩]
    (by decide) (by decide) (by decide)

end PySparkResource
